import Mathlib

/-!
Shallow embedding of the resilient-request core of the repository:
`fetchWithRetry` and `apiCall` (src/unnamed/part_000), the bounded
polling loop `waitForGeneration` (src/src/pages/BackendTest.tsx) and the
wall-clock polling loop `waitForGenerationCompletion`
(src/src/components/content/PersonalizedGenerator.tsx).

JavaScript exceptions are modelled with `Except`; a thrown value is
either an `Error` object (name and message) or `undefined` (the value of
an uninitialized variable).  The network is modelled by an environment
function giving, for each 1-based attempt number, the outcome of that
attempt's `fetch`: a resolved `Response` or a rejected `Error`.  Body
parsing (`response.json()` / `response.text()`) is modelled by oracles
carried on the `Response`, each of which may succeed or throw.
-/

/-- A JavaScript `Error` object: its `name` and `message` properties. -/
structure JsError where
  name : String
  message : String
deriving Repr, DecidableEq

/-- `new Error(msg)`: an error whose `name` is the default "Error". -/
def mkError (msg : String) : JsError := ⟨ "Error", msg⟩

/-- The fields of a parsed JSON body that the code reads: `detail` and
`message` (error bodies) and `completed` (generation status bodies).
A `none` field models the field being absent (`undefined`). -/
structure JsonBody where
  detail : Option String
  message : Option String
  completed : Option Bool
deriving Repr, DecidableEq

instance {ε α : Type} [DecidableEq ε] [DecidableEq α] : DecidableEq (Except ε α) := fun x y =>
  match x, y with
  | Except.ok a, Except.ok b =>
    if h : a = b then isTrue (by rw [h]) else isFalse (by intro hh; cases hh; exact h rfl)
  | Except.error a, Except.error b =>
    if h : a = b then isTrue (by rw [h]) else isFalse (by intro hh; cases hh; exact h rfl)
  | Except.ok _, Except.error _ => isFalse (by intro hh; cases hh)
  | Except.error _, Except.ok _ => isFalse (by intro hh; cases hh)

/-- A fetch `Response`: status, statusText, and the outcomes of reading
its body as JSON (`response.json()`) or as text (`response.text()`),
either of which may throw. -/
structure Response where
  status : Nat
  statusText : String
  jsonResult : Except JsError JsonBody
  textResult : Except JsError String
deriving Repr, DecidableEq

/-- `response.ok`: true exactly when the status is in the 2xx range
(the fetch specification defines ok as status 200..299). -/
def Response.ok (r : Response) : Bool := 200 ≤ r.status && r.status < 300

/-- The outcome of one `fetch` call: the promise resolves with a
response or rejects with an error (network failure, or an abort whose
error has name "AbortError" when the per-attempt timeout fires). -/
inductive AttemptResult where
  | resolved (r : Response)
  | rejected (e : JsError)
deriving Repr, DecidableEq

/-- A value thrown by the JavaScript code: an `Error` object, or
`undefined` (thrown by `throw lastError!` when `lastError` was never
assigned). -/
inductive Thrown where
  | error (e : JsError)
  | undef
deriving Repr, DecidableEq

/-- The observable trace of one `fetchWithRetry` run: how many `fetch`
attempts were issued, the backoff delays waited between consecutive
attempts (in order: `delays.get 0` is waited before attempt 2), and the
final outcome (a returned `Response` or a thrown value). -/
structure FetchTrace where
  attemptsMade : Nat
  delays : List Nat
  result : Except Thrown Response
deriving Repr, DecidableEq

/-- The delay computed in the catch block of attempt `attempt`:
`Math.min(1000 * Math.pow(2, attempt - 1), 5000)`. -/
def backoffDelay (attempt : Nat) : Nat := min (1000 * 2 ^ (attempt - 1)) 5000

/-- The error thrown for a retryable response:
`new Error(`Server error: ${status} ${statusText}`)`. -/
def serverErrorOf (r : Response) : JsError :=
  mkError ("Server error: " ++ toString r.status ++ " " ++ r.statusText)

/-- `throw lastError!`: throwing the current value of `lastError`, which
is `undefined` when the loop body never ran. -/
def throwLast : Option JsError → Thrown
  | some e => Thrown.error e
  | none => Thrown.undef

/-- The retry loop of `fetchWithRetry`.  `attempt` is the 1-based loop
counter; `fuel` is the number of remaining loop iterations
(`maxRetries - attempt + 1` at every call from `fetchWithRetry`), so
`fuel = 0` is exactly the loop exit `attempt > maxRetries`, after which
the function executes `throw lastError!`.  One iteration: run
`env attempt`; a 2xx or 4xx response is returned at once; a 5xx (or any
other non-ok, non-4xx) response throws `serverErrorOf` into the catch
block; a rejected fetch reaches the catch block with its error.  The
catch block rethrows "Request timeout" for an AbortError, rethrows the
error on the last attempt, and otherwise waits `backoffDelay attempt`
and continues. -/
def fetchGo (env : Nat → AttemptResult) (maxRetries : Nat) :
    Nat → Nat → Option JsError → FetchTrace
  | _, 0, lastError => ⟨0, [], Except.error (throwLast lastError)⟩
  | attempt, fuel + 1, _ =>
    let fail : JsError → FetchTrace := fun e =>
      if e.name = "AbortError" then
        ⟨1, [], Except.error (Thrown.error (mkError "Request timeout"))⟩
      else if attempt = maxRetries then
        ⟨1, [], Except.error (Thrown.error e)⟩
      else
        let t := fetchGo env maxRetries (attempt + 1) fuel (some e)
        ⟨t.attemptsMade + 1, backoffDelay attempt :: t.delays, t.result⟩
    match env attempt with
    | AttemptResult.rejected e => fail e
    | AttemptResult.resolved r =>
      if r.ok then ⟨1, [], Except.ok r⟩
      else if 400 ≤ r.status && r.status < 500 then ⟨1, [], Except.ok r⟩
      else fail (serverErrorOf r)

/-- `fetchWithRetry(url, options, maxRetries, timeout)`: the loop runs
`attempt = 1 .. maxRetries`, so it starts at attempt 1 with `maxRetries`
iterations available and `lastError` unassigned. -/
def fetchWithRetry (env : Nat → AttemptResult) (maxRetries : Nat) : FetchTrace :=
  fetchGo env maxRetries 1 maxRetries none

/-- The `ApiResponse<T>` interface: optional `data`, optional `error`,
and a `success` flag. -/
structure ApiResponse where
  data : Option JsonBody
  error : Option String
  success : Bool
deriving Repr, DecidableEq

/-- JavaScript `a || b` on an optional string field: an absent field is
`undefined` (falsy) and an empty string is falsy, so the fallback is
used unless the field is present and non-empty. -/
def truthyOr (v : Option String) (fallback : String) : String :=
  match v with
  | some s => if s = "" then fallback else s
  | none => fallback

/-- The initial error message of the non-ok branch of `apiCall`:
`HTTP ${response.status}: ${response.statusText}`. -/
def statusLineOf (r : Response) : String :=
  "HTTP " ++ toString r.status ++ ": " ++ r.statusText

/-- The body of `apiCall`'s try block, before the outer catch:
call `fetchWithRetry`; on a non-ok response build the error message
(`errorData.detail || errorData.message || statusLine` when the body
parses as JSON; the text body if non-empty, else the status line, when
JSON parsing throws; a throw from `response.text()` itself escapes) and
return a failure result; on an ok response parse the body as the payload
(a throw from `response.json()` escapes to the outer catch). -/
def apiCallBody (env : Nat → AttemptResult) (maxRetries : Nat) :
    Except Thrown ApiResponse :=
  match (fetchWithRetry env maxRetries).result with
  | Except.error t => Except.error t
  | Except.ok response =>
    if !response.ok then
      match response.jsonResult with
      | Except.ok errorData =>
        Except.ok ⟨none,
          some (truthyOr errorData.detail
            (truthyOr errorData.message (statusLineOf response))), false⟩
      | Except.error _ =>
        match response.textResult with
        | Except.ok errorText =>
          Except.ok ⟨none,
            some (if errorText = "" then statusLineOf response else errorText),
            false⟩
        | Except.error e => Except.error (Thrown.error e)
    else
      match response.jsonResult with
      | Except.ok data => Except.ok ⟨some data, none, true⟩
      | Except.error e => Except.error (Thrown.error e)

/-- The outer catch of `apiCall`:
`error instanceof Error ? error.message : 'Unknown error occurred'`. -/
def thrownMessage : Thrown → String
  | Thrown.error e => e.message
  | Thrown.undef => "Unknown error occurred"

/-- `apiCall(url, options, maxRetries)`: the try body, with every thrown
value converted by the outer catch into `{success: false, error}`. -/
def apiCall (env : Nat → AttemptResult) (maxRetries : Nat) : ApiResponse :=
  match apiCallBody env maxRetries with
  | Except.ok r => r
  | Except.error t => ⟨none, some (thrownMessage t), false⟩

/-- The observable trace of one run of the iteration-bounded poller
`waitForGeneration`: how many status checks were performed and the
returned boolean. -/
structure PollTrace where
  iterations : Nat
  result : Bool
deriving Repr, DecidableEq

/-- Truthiness of `(response.data as {completed?: boolean})?.completed`:
an absent `data` or an absent `completed` field is `undefined` (falsy);
otherwise the boolean itself. -/
def completedTruthy : Option JsonBody → Bool
  | none => false
  | some j => j.completed.getD false

/-- The `for (let i = 0; i < 60; i++)` loop of `waitForGeneration` in
BackendTest.tsx, generalized over the iteration budget (`fuel` is the
number of iterations remaining; the source hardcodes 60).  Each
iteration runs `apiCall` on the status endpoint (modelled by `checks i`,
which is total: `apiCall` never throws); on
`response.success && response.data?.completed` it returns true at once,
otherwise it waits `POLLING_INTERVAL` and continues.  When the loop ends
without observing completion the function returns true (fail-open). -/
def waitGo (checks : Nat → ApiResponse) : Nat → Nat → PollTrace
  | _, 0 => ⟨0, true⟩
  | i, fuel + 1 =>
    let r := checks i
    if r.success && completedTruthy r.data then ⟨1, true⟩
    else
      let t := waitGo checks (i + 1) fuel
      ⟨t.iterations + 1, t.result⟩

/-- `waitForGeneration` (BackendTest.tsx): the loop starts at `i = 0`
with 60 iterations. -/
def waitForGeneration (checks : Nat → ApiResponse) : PollTrace :=
  waitGo checks 0 60

/-- One iteration body of `waitForGenerationCompletion`
(PersonalizedGenerator.tsx): `fetch` the status endpoint inside a try
whose catch swallows everything, so the iteration observes completion
exactly when the fetch resolves, `statusResp.ok` holds, `json()`
parses, and `statusData.completed` is truthy; every other case (a
rejected fetch, a non-ok response, a JSON parse throw, a falsy
`completed`) just falls through to the next interval. -/
def statusCompleted : AttemptResult → Bool
  | AttemptResult.rejected _ => false
  | AttemptResult.resolved r =>
    if r.ok then
      match r.jsonResult with
      | Except.ok j => j.completed.getD false
      | Except.error _ => false
    else false

/-- `const pollInterval = 3000` in `waitForGenerationCompletion`. -/
def pollIntervalPG : Nat := 3000

/-- The `while (Date.now() - startTime < maxWaitTime)` loop of
`waitForGenerationCompletion`, under the time model in which each
iteration takes exactly one `pollInterval` (3000) of wall-clock time, so
the elapsed time when iteration `k` (0-based) tests the loop condition
is `k * 3000`.  When the condition fails the function executes
`throw new Error('Generation process timed out')`.  `fuel` is a
structural-recursion bound only: since each iteration advances the
elapsed time by 3000 ≥ 1, the loop performs at most `maxWaitTime`
iterations, so the `fuel = 0, elapsed < maxWaitTime` branch is
unreachable from `waitForGenerationCompletion`, which supplies
`fuel = maxWaitTime`. -/
def wfcGo (check : Nat → AttemptResult) (maxWaitTime : Nat) :
    Nat → Nat → Except JsError Bool
  | k, 0 =>
    if k * pollIntervalPG < maxWaitTime then Except.ok false
    else Except.error (mkError "Generation process timed out")
  | k, fuel + 1 =>
    if k * pollIntervalPG < maxWaitTime then
      if statusCompleted (check k) then Except.ok true
      else wfcGo check maxWaitTime (k + 1) fuel
    else Except.error (mkError "Generation process timed out")

/-- `waitForGenerationCompletion(maxWaitTime = 300000)`
(PersonalizedGenerator.tsx): an `Except.error` is the thrown error, an
`Except.ok true` is the `return true` on observed completion. -/
def waitForGenerationCompletion (check : Nat → AttemptResult)
    (maxWaitTime : Nat) : Except JsError Bool :=
  wfcGo check maxWaitTime 0 maxWaitTime

/-- Does one fetch attempt resolve with a server-error (5xx) response? -/
def is5xxB : AttemptResult → Bool
  | AttemptResult.resolved r => 500 ≤ r.status && r.status < 600
  | AttemptResult.rejected _ => false

/-- A 500 response whose body does not parse as JSON. -/
def r500 : Response :=
  ⟨500, "Internal Server Error",
    Except.error ⟨ "SyntaxError", "Unexpected token"⟩, Except.ok ""⟩

/-- An environment in which every attempt resolves with `r500`. -/
def constEnv5xx : Nat → AttemptResult := fun _ => AttemptResult.resolved r500

/-- The rejection produced by `controller.abort()` firing the
per-attempt timeout. -/
def abortErr : JsError := ⟨ "AbortError", "The operation was aborted"⟩

/-- An environment in which every attempt is aborted by its timeout. -/
def abortEnv : Nat → AttemptResult := fun _ => AttemptResult.rejected abortErr

/-- A JSON object body with none of the fields the code reads. -/
def emptyJson : JsonBody := ⟨none, none, none⟩

/-- A 401 response. -/
def r401 : Response :=
  ⟨401, "Unauthorized", Except.ok emptyJson, Except.ok ""⟩

/-- An environment in which every attempt resolves with `r401`. -/
def env401 : Nat → AttemptResult := fun _ => AttemptResult.resolved r401

/-- A 404 response whose body is valid JSON without `detail` or
`message`, and whose text form is non-empty. -/
def r404 : Response :=
  ⟨404, "Not Found", Except.ok emptyJson, Except.ok "nonempty body text"⟩

/-- An environment in which every attempt resolves with `r404`. -/
def env404json : Nat → AttemptResult := fun _ => AttemptResult.resolved r404

/-- An environment in which the request succeeds (200) but reading the
body as JSON throws. -/
def jsonThrowEnv : Nat → AttemptResult := fun _ =>
  AttemptResult.resolved
    ⟨200, "OK", Except.error ⟨ "SyntaxError", "Unexpected end of JSON input"⟩,
      Except.ok ""⟩

/-- A status-check result in which `apiCall` reported a failure
(the normalized form of a transport error). -/
def failingChecks : Nat → ApiResponse := fun _ =>
  ⟨none, some "HTTP 500: Internal Server Error", false⟩

/-- A status fetch that always fails at the transport layer, so the
check never reports completion. -/
def neverCompleteCheck : Nat → AttemptResult := fun _ =>
  AttemptResult.rejected (mkError "Failed to fetch")

/-- Helper: the delays recorded by the retry loop form a contiguous
block `backoffDelay attempt, backoffDelay (attempt+1), ...`. -/
theorem fetchGo_delays_shape (env : Nat → AttemptResult) (M : Nat) :
    ∀ fuel attempt le, ∃ n,
      (fetchGo env M attempt fuel le).delays =
        (List.range' attempt n).map backoffDelay := by
  intro fuel
  induction fuel with
  | zero =>
    intro attempt le
    exact ⟨0, rfl⟩
  | succ f ih =>
    intro attempt le
    have hcons : ∀ e : JsError,
        ∃ n, (if e.name = "AbortError" then
            (⟨1, [], Except.error (Thrown.error (mkError "Request timeout"))⟩ : FetchTrace)
          else if attempt = M then
            ⟨1, [], Except.error (Thrown.error e)⟩
          else
            ⟨(fetchGo env M (attempt + 1) f (some e)).attemptsMade + 1,
              backoffDelay attempt :: (fetchGo env M (attempt + 1) f (some e)).delays,
              (fetchGo env M (attempt + 1) f (some e)).result⟩).delays =
          (List.range' attempt n).map backoffDelay := by
      intro e
      by_cases habort : e.name = "AbortError"
      · exact ⟨0, by simp [habort]⟩
      · by_cases hlast : attempt = M
        · exact ⟨0, by simp [habort, hlast]⟩
        · obtain ⟨n, hn⟩ := ih (attempt + 1) (some e)
          exact ⟨n + 1, by simp [habort, hlast, List.range'_succ, hn]⟩
    cases henv : env attempt with
    | rejected e =>
      simpa [fetchGo, henv] using hcons e
    | resolved r =>
      by_cases hok : r.ok
      · exact ⟨0, by simp [fetchGo, henv, hok]⟩
      · by_cases h4 : (400 ≤ r.status && r.status < 500) = true
        · exact ⟨0, by simp [fetchGo, henv, hok, h4]⟩
        · simpa [fetchGo, henv, hok, h4] using hcons (serverErrorOf r)

/-- Helper: indexing into a mapped `range'` block. -/
theorem get_of_range'_map (f : Nat → Nat) (a n : Nat) (l : List Nat)
    (hl : l = (List.range' a n).map f) (i : Nat) (h : i < l.length) :
    l.get ⟨i, h⟩ = f (a + i) := by
  subst hl
  have hi : i < n := by simpa using h
  simp [List.get_eq_getElem, List.getElem_map, List.getElem_range'_1]

/-- C4: in `fetchWithRetry`, the `j`-th recorded backoff delay (0-based,
waited between attempt `j+1` and attempt `j+2`, i.e. before attempt
`k = j + 2`) equals `min(1000 * 2^(k-2), 5000)`: 1000 before attempt 2,
2000 before attempt 3, 4000 before attempt 4, and 5000 (the cap) before
every later attempt. -/
theorem backoff_delay_formula (env : Nat → AttemptResult) (M k : Nat)
    (hk : 2 ≤ k) (h : k - 2 < (fetchWithRetry env M).delays.length) :
    (fetchWithRetry env M).delays.get ⟨k - 2, h⟩ =
      min (1000 * 2 ^ (k - 2)) 5000 := by
  obtain ⟨n, hn⟩ := fetchGo_delays_shape env M M 1 none
  have hfw : (fetchWithRetry env M).delays =
      (List.range' 1 n).map backoffDelay := hn
  have := get_of_range'_map backoffDelay 1 n (fetchWithRetry env M).delays hfw (k - 2) h
  rw [this]
  have harith : 1 + (k - 2) - 1 = k - 2 := by omega
  rw [backoffDelay, harith]

/-- Witness for C4 at the all-5xx environment with maxRetries 3 and
attempt k = 3: the delay waited before attempt 3 is 2000. -/
theorem backoff_delay_formula_witness :
    2 ≤ 3 ∧ ∃ h : 3 - 2 < (fetchWithRetry constEnv5xx 3).delays.length,
      (fetchWithRetry constEnv5xx 3).delays.get ⟨3 - 2, h⟩ =
        min (1000 * 2 ^ (3 - 2)) 5000 :=
  ⟨by decide, by decide, backoff_delay_formula constEnv5xx 3 3 (by decide) (by decide)⟩

/-- C10: with `maxRetries = 0` the retry loop body never runs: no fetch
attempt is issued, no `Response` is returned, and the function falls
through to `throw lastError!` with `lastError` still uninitialized, so
the thrown value is `undefined`, not an `Error` with a message. -/
theorem zero_retries_no_attempt (env : Nat → AttemptResult) :
    fetchWithRetry env 0 = ⟨0, [], Except.error Thrown.undef⟩ := rfl

/-- C6: a 4xx response on the first attempt is returned immediately:
exactly one attempt, an empty delay list, and the response itself as the
result, for every maxRetries budget that lets attempt 1 run. -/
theorem client_error_immediate (env : Nat → AttemptResult) (M : Nat)
    (r : Response) (hM : 1 ≤ M) (h1 : env 1 = AttemptResult.resolved r)
    (h4 : 400 ≤ r.status) (h5 : r.status < 500) :
    fetchWithRetry env M = ⟨1, [], Except.ok r⟩ := by
  obtain ⟨f, rfl⟩ : ∃ f, M = f + 1 := ⟨M - 1, by omega⟩
  have hok : r.ok = false := by
    simp only [Response.ok, Bool.and_eq_false_iff, decide_eq_false_iff_not]
    omega
  have h45 : (400 ≤ r.status && r.status < 500) = true := by
    simp only [Bool.and_eq_true, decide_eq_true_eq]
    omega
  simp [fetchWithRetry, fetchGo, h1, hok, h45]

/-- Witness for C6: a 401 on the first attempt with maxRetries 5. -/
theorem client_error_immediate_witness :
    fetchWithRetry env401 5 = ⟨1, [], Except.ok r401⟩ :=
  client_error_immediate env401 5 r401 (by decide) rfl (by decide) (by decide)

/-- Helper: facts extracted from a 5xx attempt outcome. -/
theorem is5xxB_resolved (a : AttemptResult) (h : is5xxB a = true) :
    ∃ r, a = AttemptResult.resolved r ∧ r.ok = false ∧
      (400 ≤ r.status && r.status < 500) = false ∧
      (serverErrorOf r).name = "Error" := by
  cases a with
  | rejected e => simp [is5xxB] at h
  | resolved r =>
    simp only [is5xxB, Bool.and_eq_true, decide_eq_true_eq] at h
    refine ⟨r, rfl, ?_, ?_, rfl⟩
    · simp only [Response.ok, Bool.and_eq_false_iff, decide_eq_false_iff_not]
      omega
    · simp only [Bool.and_eq_false_iff, decide_eq_false_iff_not]
      omega

/-- Helper: when every attempt from `attempt` through `maxRetries`
resolves with a 5xx response, the loop consumes all remaining
iterations and throws the server error of the last attempt. -/
theorem fetchGo_all5xx (env : Nat → AttemptResult) (M : Nat) (rM : Response)
    (hM : env M = AttemptResult.resolved rM) :
    ∀ fuel attempt le, attempt + fuel = M + 1 → 1 ≤ fuel →
      (∀ k, attempt ≤ k → k ≤ M → is5xxB (env k) = true) →
      fetchGo env M attempt fuel le =
        ⟨fuel, (List.range' attempt (fuel - 1)).map backoffDelay,
          Except.error (Thrown.error (serverErrorOf rM))⟩ := by
  intro fuel
  induction fuel with
  | zero =>
    intro attempt le hsum hpos hall
    omega
  | succ f ih =>
    intro attempt le hsum hpos hall
    have hle : attempt ≤ M := by omega
    have h5 := hall attempt (Nat.le_refl attempt) hle
    obtain ⟨r, henv, hok, h45, hname⟩ := is5xxB_resolved (env attempt) h5
    have hnoabort : ((serverErrorOf r).name = "AbortError") = False := by
      rw [hname]
      simp
    by_cases hlastf : f = 0
    · subst hlastf
      have hatt : attempt = M := by omega
      subst hatt
      have hr : r = rM := by
        rw [henv] at hM
        injection hM
      subst hr
      simp [fetchGo, henv, hok, h45, hnoabort]
    · have hattM : (attempt = M) = False := by
        simp only [eq_iff_iff, iff_false]
        omega
      have ht := ih (attempt + 1) (some (serverErrorOf r)) (by omega) (by omega)
        (fun k hk1 hk2 => hall k (by omega) hk2)
      have hf : f - 1 + 1 = f := by omega
      have hl : (List.range' attempt (f + 1 - 1)).map backoffDelay =
          backoffDelay attempt ::
            (List.range' (attempt + 1) (f - 1)).map backoffDelay := by
        rw [Nat.add_sub_cancel, ← hf, List.range'_succ]
        simp
      simp only [fetchGo, henv, hok, h45, Bool.false_eq_true, if_false,
        hnoabort, hattM, ht, hl]

/-- C3: with maxRetries = N ≥ 1 and every attempt resolving with a 5xx
response, `fetchWithRetry` issues exactly N attempts and then throws the
last observed error, the server error built from attempt N's response. -/
theorem all5xx_exactly_N_attempts (env : Nat → AttemptResult) (N : Nat)
    (rN : Response) (hpos : 1 ≤ N)
    (hall : ∀ k, 1 ≤ k → k ≤ N → is5xxB (env k) = true)
    (hN : env N = AttemptResult.resolved rN) :
    (fetchWithRetry env N).attemptsMade = N ∧
      (fetchWithRetry env N).result =
        Except.error (Thrown.error (serverErrorOf rN)) := by
  have h := fetchGo_all5xx env N rN hN N 1 none (by omega) hpos hall
  have hfw : fetchWithRetry env N = fetchGo env N 1 N none := rfl
  rw [hfw, h]
  exact ⟨rfl, rfl⟩

/-- Witness for C3: three straight 500s with maxRetries 3 make exactly
3 attempts and fail with the last server error. -/
theorem all5xx_exactly_N_attempts_witness :
    (fetchWithRetry constEnv5xx 3).attemptsMade = 3 ∧
      (fetchWithRetry constEnv5xx 3).result =
        Except.error (Thrown.error (serverErrorOf r500)) :=
  all5xx_exactly_N_attempts constEnv5xx 3 r500 (by decide)
    (fun k hk1 hk2 => rfl) rfl

/-- Helper: when attempts `attempt .. k-1` resolve with 5xx responses
and attempt `k` is rejected with an AbortError, the loop stops at
attempt `k` and throws "Request timeout". -/
theorem fetchGo_abort (env : Nat → AttemptResult) (M k : Nat) (e : JsError)
    (hk : env k = AttemptResult.rejected e) (hname : e.name = "AbortError") :
    ∀ fuel attempt le, attempt + fuel = M + 1 → attempt ≤ k → k ≤ M →
      (∀ j, attempt ≤ j → j < k → is5xxB (env j) = true) →
      fetchGo env M attempt fuel le =
        ⟨k + 1 - attempt, (List.range' attempt (k - attempt)).map backoffDelay,
          Except.error (Thrown.error (mkError "Request timeout"))⟩ := by
  intro fuel
  induction fuel with
  | zero =>
    intro attempt le hsum hak hkM hpre
    omega
  | succ f ih =>
    intro attempt le hsum hak hkM hpre
    by_cases heq : attempt = k
    · subst heq
      have e1 : attempt + 1 - attempt = 1 := by omega
      have e2 : attempt - attempt = 0 := by omega
      simp [fetchGo, hk, hname, e1, e2]
    · have hlt : attempt < k := by omega
      have h5 := hpre attempt (Nat.le_refl attempt) hlt
      obtain ⟨r, henv, hok, h45, hname5⟩ := is5xxB_resolved (env attempt) h5
      have hnoabort : ((serverErrorOf r).name = "AbortError") = False := by
        rw [hname5]
        simp
      have hattM : (attempt = M) = False := by
        simp only [eq_iff_iff, iff_false]
        omega
      have ht := ih (attempt + 1) (some (serverErrorOf r)) (by omega) (by omega)
        hkM (fun j hj1 hj2 => hpre j (by omega) hj2)
      have e1 : k + 1 - (attempt + 1) + 1 = k + 1 - attempt := by omega
      have e2 : k - (attempt + 1) + 1 = k - attempt := by omega
      have hl : (List.range' attempt (k - attempt)).map backoffDelay =
          backoffDelay attempt ::
            (List.range' (attempt + 1) (k - (attempt + 1))).map backoffDelay := by
        rw [← e2, List.range'_succ]
        simp
      simp only [fetchGo, henv, hok, h45, Bool.false_eq_true, if_false,
        hnoabort, hattM, ht, hl, e1]

/-- C5: if attempt `k` (reached after a prefix of retryable 5xx
attempts) ends on the timeout path — its fetch rejects with an
AbortError — the whole operation stops at attempt `k` and throws
"Request timeout", with no further attempts even though `k ≤ M` leaves
retries available. -/
theorem timeout_aborts_immediately (env : Nat → AttemptResult) (M k : Nat)
    (e : JsError) (h1 : 1 ≤ k) (hkM : k ≤ M)
    (hpre : ∀ j, 1 ≤ j → j < k → is5xxB (env j) = true)
    (hk : env k = AttemptResult.rejected e) (hname : e.name = "AbortError") :
    (fetchWithRetry env M).attemptsMade = k ∧
      (fetchWithRetry env M).result =
        Except.error (Thrown.error (mkError "Request timeout")) := by
  have h := fetchGo_abort env M k e hk hname M 1 none (by omega) h1 hkM hpre
  have hfw : fetchWithRetry env M = fetchGo env M 1 M none := rfl
  rw [hfw, h]
  refine ⟨?_, rfl⟩
  show k + 1 - 1 = k
  omega

/-- Witness for C5: a timeout on the first attempt with maxRetries 3
stops after one attempt with "Request timeout". -/
theorem timeout_aborts_immediately_witness :
    (fetchWithRetry abortEnv 3).attemptsMade = 1 ∧
      (fetchWithRetry abortEnv 3).result =
        Except.error (Thrown.error (mkError "Request timeout")) :=
  timeout_aborts_immediately abortEnv 3 1 abortErr (by decide) (by decide)
    (fun j hj1 hj2 => absurd (Nat.lt_of_lt_of_le hj2 hj1) (lt_irrefl j)) rfl rfl

/-- C2: `apiCall` never raises.  Its type already makes it total (it
always returns an `ApiResponse`), and every throw from its try body —
a transport failure or timeout propagated by `fetchWithRetry`, the
`undefined` thrown for `maxRetries = 0`, or a body-parsing throw from
`response.json()` / `response.text()` — is caught by the outer catch and
returned as `{success: false, error: <message>}` with the message taken
from the thrown value. -/
theorem apicall_never_raises (env : Nat → AttemptResult) (mr : Nat)
    (t : Thrown) (h : apiCallBody env mr = Except.error t) :
    apiCall env mr = ⟨none, some (thrownMessage t), false⟩ := by
  simp [apiCall, h]

/-- Witness for C2: a 200 response whose body throws during JSON
parsing yields a failure result carrying the parse error's message. -/
theorem apicall_never_raises_witness :
    apiCallBody jsonThrowEnv 1 =
        Except.error
          (Thrown.error ⟨ "SyntaxError", "Unexpected end of JSON input"⟩) ∧
      apiCall jsonThrowEnv 1 =
        ⟨none, some "Unexpected end of JSON input", false⟩ := by
  refine ⟨by decide, ?_⟩
  have h := apicall_never_raises jsonThrowEnv 1
    (Thrown.error ⟨ "SyntaxError", "Unexpected end of JSON input"⟩) (by decide)
  simpa [thrownMessage] using h

/-- Helper: every successful value the try body of `apiCall` produces
is exclusively tagged. -/
theorem apiCallBody_ok_shape (env : Nat → AttemptResult) (mr : Nat)
    (r : ApiResponse) (h : apiCallBody env mr = Except.ok r) :
    (r.success = true ∧ r.data.isSome = true ∧ r.error = none) ∨
      (r.success = false ∧ r.data = none ∧ r.error.isSome = true) := by
  unfold apiCallBody at h
  split at h
  · cases h
  · split at h
    · split at h
      · cases h
        right
        exact ⟨rfl, rfl, rfl⟩
      · split at h
        · cases h
          right
          exact ⟨rfl, rfl, rfl⟩
        · cases h
    · split at h
      · cases h
        left
        exact ⟨rfl, rfl, rfl⟩
      · cases h

/-- C7: every `ApiResult` produced by `apiCall` is exclusively tagged:
either success with data and no error string, or failure with an error
string and no data — never both. -/
theorem apiresult_exclusively_tagged (env : Nat → AttemptResult) (mr : Nat) :
    ((apiCall env mr).success = true ∧ (apiCall env mr).data.isSome = true ∧
        (apiCall env mr).error = none) ∨
      ((apiCall env mr).success = false ∧ (apiCall env mr).data = none ∧
        (apiCall env mr).error.isSome = true) := by
  cases h : apiCallBody env mr with
  | error t =>
    right
    simp [apiCall, h]
  | ok r =>
    have hr := apiCallBody_ok_shape env mr r h
    simpa [apiCall, h] using hr

/-- The definition written from the amended claim's words, for C8: the
error string chosen for a non-ok response.  When the body parses as
JSON: the `detail` field if present and truthy (non-empty), else the
`message` field if present and truthy, else the HTTP status line — the
plain-text body is NOT consulted in this case.  Only when JSON parsing
throws is the text body used, and only if non-empty, else the status
line; a throw while reading the text escapes to the outer catch, which
surfaces that error's message. -/
def errorMessageChain (r : Response) : String :=
  match r.jsonResult with
  | Except.ok j => truthyOr j.detail (truthyOr j.message (statusLineOf r))
  | Except.error _ =>
    match r.textResult with
    | Except.ok t => if t = "" then statusLineOf r else t
    | Except.error e => e.message

/-- Counterexample for C8 as stated: a 404 whose body is valid JSON
with neither `detail` nor `message`, and whose text form is the
non-empty string "nonempty body text".  The claim's chain picks the
text; the code keeps the HTTP status line. -/
theorem error_chain_counterexample :
    apiCall env404json 1 = ⟨none, some "HTTP 404: Not Found", false⟩ ∧
      ¬ apiCall env404json 1 = ⟨none, some "nonempty body text", false⟩ := by
  decide

/-- C8 amended: for a non-ok response the error string is exactly
`errorMessageChain`: `detail` if truthy, else `message` if truthy, else
the status line when the body parses as JSON; the text body (if
non-empty, else the status line) only when JSON parsing throws; and the
text-read error's own message if reading the text throws too. -/
theorem error_chain_amended (env : Nat → AttemptResult) (mr : Nat)
    (r : Response) (hres : (fetchWithRetry env mr).result = Except.ok r)
    (hnok : r.ok = false) :
    apiCall env mr = ⟨none, some (errorMessageChain r), false⟩ := by
  unfold apiCall apiCallBody
  rw [hres]
  cases hj : r.jsonResult with
  | ok j =>
    simp [hnok, hj, errorMessageChain]
  | error e =>
    cases ht : r.textResult with
    | ok t =>
      simp [hnok, hj, ht, errorMessageChain]
    | error e2 =>
      simp [hnok, hj, ht, errorMessageChain, thrownMessage]

/-- Witness for C8 amended at the 404-with-empty-JSON response. -/
theorem error_chain_amended_witness :
    apiCall env404json 1 = ⟨none, some (errorMessageChain r404), false⟩ :=
  error_chain_amended env404json 1 r404 (by decide) (by decide)

/-- Helper: a status check that never reports completion makes
`waitGo` consume its whole budget and return true. -/
theorem waitGo_never_complete (checks : Nat → ApiResponse)
    (hnever : ∀ i, ((checks i).success && completedTruthy (checks i).data) = false) :
    ∀ M i, waitGo checks i M = ⟨M, true⟩ := by
  intro M
  induction M with
  | zero =>
    intro i
    rfl
  | succ m ih =>
    intro i
    simp [waitGo, hnever i, ih (i + 1)]

/-- Helper: a status check that never observes completion drives
`wfcGo` to the timeout throw, for any fuel covering the remaining
time budget. -/
theorem wfcGo_never_complete (check : Nat → AttemptResult) (mwt : Nat)
    (hnever : ∀ k, statusCompleted (check k) = false) :
    ∀ fuel k, mwt ≤ fuel * 3000 + k * 3000 →
      wfcGo check mwt k fuel =
        Except.error (mkError "Generation process timed out") := by
  intro fuel
  induction fuel with
  | zero =>
    intro k hle
    have hc : ¬ k * pollIntervalPG < mwt := by
      have hp : pollIntervalPG = 3000 := rfl
      rw [hp]
      omega
    simp [wfcGo, hc]
  | succ f ih =>
    intro k hle
    by_cases hc : k * pollIntervalPG < mwt
    · have hrec := ih (k + 1) (by omega)
      simp [wfcGo, hc, hnever k, hrec]
    · simp [wfcGo, hc]

/-- Counterexample for C1 as stated: the PersonalizedGenerator
completion poller, given a status check that never reports completion
(every fetch fails at the transport layer) and a 3000 ms budget, does
not return a truthy proceed result — it throws
`Error('Generation process timed out')` to its caller. -/
theorem poller_exhaustion_counterexample :
    waitForGenerationCompletion neverCompleteCheck 3000 =
      Except.error (mkError "Generation process timed out") := by
  decide

/-- C1 amended: only the BackendTest poller is fail-open.  For every
iteration budget M and every status check that never reports
completion, `waitGo` (the BackendTest `waitForGeneration` loop, which
the source runs with M = 60) performs exactly M iterations and returns
true; the PersonalizedGenerator poller `waitForGenerationCompletion`
instead exhausts its time budget and throws
`Error('Generation process timed out')` to the caller. -/
theorem poller_fail_open_amended :
    (∀ (checks : Nat → ApiResponse) (M : Nat),
        (∀ i, ((checks i).success && completedTruthy (checks i).data) = false) →
        waitGo checks 0 M = ⟨M, true⟩) ∧
      (∀ (check : Nat → AttemptResult) (mwt : Nat),
        (∀ k, statusCompleted (check k) = false) →
        waitForGenerationCompletion check mwt =
          Except.error (mkError "Generation process timed out")) := by
  constructor
  · intro checks M h
    exact waitGo_never_complete checks h M 0
  · intro check mwt h
    exact wfcGo_never_complete check mwt h mwt 0 (by omega)

/-- Witness for C1 amended: a never-completing check with budget 2
makes the BackendTest loop run 2 iterations and return true, and makes
the PersonalizedGenerator poller with a 6000 ms budget throw. -/
theorem poller_fail_open_amended_witness :
    waitGo failingChecks 0 2 = ⟨2, true⟩ ∧
      waitForGenerationCompletion neverCompleteCheck 6000 =
        Except.error (mkError "Generation process timed out") :=
  ⟨poller_fail_open_amended.1 failingChecks 2 (fun _ => rfl),
    poller_fail_open_amended.2 neverCompleteCheck 6000 (fun _ => rfl)⟩

/-- C9: a transport failure on one status-check iteration does not
terminate either polling session.  In the BackendTest loop a transport
failure surfaces as an unsuccessful `apiCall` result and the loop
proceeds to the next iteration with one more iteration counted; in the
PersonalizedGenerator loop a rejected fetch is swallowed by the catch
and the loop continues at the next interval, as long as the time budget
is not exhausted. -/
theorem transport_failure_continues :
    (∀ (checks : Nat → ApiResponse) (i fuel : Nat),
        (checks i).success = false →
        waitGo checks i (fuel + 1) =
          ⟨(waitGo checks (i + 1) fuel).iterations + 1,
            (waitGo checks (i + 1) fuel).result⟩) ∧
      (∀ (check : Nat → AttemptResult) (mwt k fuel : Nat) (e : JsError),
        k * pollIntervalPG < mwt → check k = AttemptResult.rejected e →
        wfcGo check mwt k (fuel + 1) = wfcGo check mwt (k + 1) fuel) := by
  constructor
  · intro checks i fuel h
    simp [waitGo, h]
  · intro check mwt k fuel e hc hk
    simp [wfcGo, hc, hk, statusCompleted]

/-- Witness for C9: a transport failure on the first iteration of each
poller leaves the session equal to the session resumed at the next
iteration. -/
theorem transport_failure_continues_witness :
    waitGo failingChecks 0 3 =
        ⟨(waitGo failingChecks 1 2).iterations + 1,
          (waitGo failingChecks 1 2).result⟩ ∧
      wfcGo neverCompleteCheck 9000 0 3 = wfcGo neverCompleteCheck 9000 1 2 :=
  ⟨transport_failure_continues.1 failingChecks 0 2 rfl,
    transport_failure_continues.2 neverCompleteCheck 9000 0 2
      (mkError "Failed to fetch") (by decide) rfl⟩
